import Mathlib

/-!
Verification development for the safety-forms analysis pipeline
(backend/src/services/ai/aiAnalysisService.js,
backend/src/services/forms/formProcessor.js, and the database tracking
service).  JavaScript strings are modelled as `List Char`; the regular
expressions used by the source are simple enough (alternations of
literals, `A.*B` chains with character classes, and two negative
lookaheads) that they are embedded as executable matchers with the same
semantics (`.` does not cross a newline; `/i` is modelled by lowercasing
text and patterns, which coincides with JS ASCII-case-insensitive
matching for these patterns).
-/

set_option maxRecDepth 100000

namespace SafetyForms

/-- JS strings as lists of characters. -/
abbrev Str := List Char

/-- Model of JS case-insensitive (`/i`) matching: lowercase the text once;
all pattern literals below are written pre-lowercased. -/
def lowerStr (s : Str) : Str := s.map Char.toLower

/-- JS `a || b` on numbers (`0`/`undefined`/`NaN` are falsy). -/
def jsOrNat (o : Option Nat) (d : Nat) : Nat :=
  match o with
  | some n => if n = 0 then d else n
  | none => d

/-- JS `a || b` on strings (the empty string and `undefined` are falsy;
both are modelled by `[]`). -/
def jsOrStr (s d : Str) : Str := if s = [] then d else s

/-- `Math.max(...xs)` over a list of naturals (the source only calls it on
non-empty lists). -/
def listMax (l : List Nat) : Nat := l.foldl Nat.max 0

/-! ## Pattern matchers

A regex atom is a literal or a character class. -/

inductive Atom where
  | lit (s : Str)
  | cls (cs : Str)
deriving DecidableEq

/-- Try to match an atom at the head of the text, returning the rest. -/
def atomAt : Atom → Str → Option Str
  | .lit s, txt => if s.isPrefixOf txt then some (txt.drop s.length) else none
  | .cls cs, c :: t => if c ∈ cs then some t else none
  | .cls _, [] => none

/-- ECMAScript line terminators, which `.` does not match:
`\n`, `\r`, U+2028 (LINE SEPARATOR) and U+2029 (PARAGRAPH SEPARATOR). -/
def isLineTerm (c : Char) : Bool :=
  c == '\n' || c == '\r' || c == Char.ofNat 0x2028 || c == Char.ofNat 0x2029

/-- `.*a` then continuation `k`: skip any number of characters that are
not line terminators, match `a`, and hand the rest to `k`. -/
def gapFind (a : Atom) (k : Str → Bool) : Str → Bool
  | [] =>
    match atomAt a [] with
    | some r => k r
    | none => false
  | c :: t =>
    (match atomAt a (c :: t) with
     | some r => k r
     | none => false)
    || (!(isLineTerm c) && gapFind a k t)

/-- Unanchored search: try the position matcher `f` at every suffix. -/
def startScan (f : Str → Bool) : Str → Bool
  | [] => f []
  | c :: t => f (c :: t) || startScan f t

/-- `/a/` : one atom anywhere. -/
def seq1 (a : Atom) (txt : Str) : Bool :=
  startScan (fun s => (atomAt a s).isSome) txt

/-- `/a.*b/` : `a`, then `.*`, then `b`. -/
def seq2 (a b : Atom) (txt : Str) : Bool :=
  startScan
    (fun s =>
      match atomAt a s with
      | some r => gapFind b (fun _ => true) r
      | none => false)
    txt

/-- `/a.*b.*c/`. -/
def seq3 (a b c : Atom) (txt : Str) : Bool :=
  startScan
    (fun s =>
      match atomAt a s with
      | some r => gapFind b (gapFind c (fun _ => true)) r
      | none => false)
    txt

/-- Substring containment (what an alternation-free literal regex tests). -/
def hasSub (s : Str) (txt : Str) : Bool :=
  startScan (fun r => s.isPrefixOf r) txt

/-- Alternation of plain literal words, e.g. `/hazard|risk|danger/`. -/
def anyLit (ws : List Str) (txt : Str) : Bool :=
  ws.any (fun w => hasSub w txt)

/-! Ends-collecting variants, needed for the two rules that carry a
negative lookahead `(?!.*✓)`: a branch with a lookahead matches iff some
complete match of its atoms has a remainder on which the lookahead
fails. -/

/-- All remainders after matching `a` preceded by a gap free of line
terminators, continued by `k`. -/
def gapEnds (a : Atom) (k : Str → List Str) : Str → List Str
  | [] =>
    match atomAt a [] with
    | some r => k r
    | none => []
  | c :: t =>
    (match atomAt a (c :: t) with
     | some r => k r
     | none => [])
    ++ (if isLineTerm c then [] else gapEnds a k t)

/-- Unanchored ends collection. -/
def startEnds (f : Str → List Str) : Str → List Str
  | [] => f []
  | c :: t => f (c :: t) ++ startEnds f t

/-- Ends of `/a.*b/` matches. -/
def seq2Ends (a b : Atom) (txt : Str) : List Str :=
  startEnds
    (fun s =>
      match atomAt a s with
      | some r => gapEnds b (fun rem => [rem]) r
      | none => [])
    txt

/-- `(?!.*✓)` fails at a remainder iff a `✓` occurs later on the same
line (before any line terminator); this tests whether the lookahead's
body matches. -/
def laChk (rem : Str) : Bool :=
  (rem.takeWhile (fun c => !(isLineTerm c))).contains '✓'

/-- `\s` (the members the source texts can contain). -/
def isWs (c : Char) : Bool :=
  c == ' ' || c == '\t' || c == '\n' || c == '\r'

/-- `(?!\s*☑)` body: whitespace then a ☑ box. -/
def laWsBox (rem : Str) : Bool :=
  match rem.dropWhile isWs with
  | c :: _ => c == '☑'
  | [] => false

/-- All remainders after an occurrence of the literal `s`. -/
def litEnds (s : Str) : Str → List Str
  | [] => if s.isPrefixOf [] then [[]] else []
  | c :: t =>
    (if s.isPrefixOf (c :: t) then [(c :: t).drop s.length] else [])
    ++ litEnds s t

/-- The negative-mark class `[✗xX]`, after lowercasing (`X ↦ x`). -/
def negCls : Atom := .cls ['✗', 'x']

/-- The affirmative-mark class `[✓✔]` the source substitutes for `[✗xX]`
when deriving a rule's positive-confirmation signature. -/
def posCls : Atom := .cls ['✓', '✔']

/-! ## Scoring primitives (aiAnalysisService.js) -/

/-- `/hazard|risk|danger/gi`. -/
def hazardVocab (l : Str) : Bool :=
  anyLit ["hazard".toList, "risk".toList, "danger".toList] l

/-- `/emergency|incident|accident/gi`. -/
def emergencyVocab (l : Str) : Bool :=
  anyLit ["emergency".toList, "incident".toList, "accident".toList] l

/-- `/control|mitigation|prevention/gi`. -/
def controlVocab (l : Str) : Bool :=
  anyLit ["control".toList, "mitigation".toList, "prevention".toList] l

/-- `calculateBaseRiskScore` (aiAnalysisService.js lines 828-838). -/
def calculateBaseRiskScore (text : Str) : Nat :=
  let l := lowerStr text
  let score := 1
  let score := if text.length > 1000 then score + 1 else score
  let score := if hazardVocab l then score + 1 else score
  let score := if emergencyVocab l then score + 1 else score
  let score := if controlVocab l then score + 1 else score
  min 6 score

/-- `getRiskLevel` (lines 918-923). -/
def getRiskLevel (score : Nat) : Str :=
  if score ≤ 3 then "LOW".toList
  else if score ≤ 6 then "MEDIUM".toList
  else if score ≤ 8 then "HIGH".toList
  else "CRITICAL".toList

/-- One detected HRW factor (the fields of a `hrwActivities` table row that
flow downstream; the regex itself is kept in the rule table). -/
structure HRWFactor where
  activity : Str
  category : Str
  riskEscalation : Option Nat
deriving DecidableEq

/-- A row of the `hrwActivities` table: a pattern plus the factor data. -/
structure HRWRule where
  test : Str → Bool
  factor : HRWFactor

/-- The `hrwActivities` table of `detectHRWFactors` (lines 840-854),
patterns pre-lowercased. -/
def hrwTable : List HRWRule :=
  [ ⟨anyLit ["working at height".toList, "height work".toList, "fall protection".toList],
      ⟨"Working at Height".toList, "HEIGHT_WORK".toList, some 3⟩⟩
  , ⟨anyLit ["electrical work".toList, "electrical installation".toList],
      ⟨"Electrical Work".toList, "ELECTRICAL".toList, some 4⟩⟩
  , ⟨anyLit ["confined space".toList, "tank entry".toList, "vessel entry".toList],
      ⟨"Confined Space".toList, "CONFINED_SPACE".toList, some 4⟩⟩
  , ⟨anyLit ["crane".toList, "mobile plant".toList, "heavy machinery".toList],
      ⟨"Mobile Plant Operations".toList, "MOBILE_PLANT".toList, some 3⟩⟩
  , ⟨anyLit ["excavation".toList, "trenching".toList, "digging".toList],
      ⟨"Excavation Work".toList, "EXCAVATION".toList, some 3⟩⟩
  , ⟨anyLit ["demolition".toList, "structural removal".toList],
      ⟨"Demolition Work".toList, "OTHER".toList, some 3⟩⟩
  , ⟨anyLit ["asbestos".toList, "hazardous material".toList],
      ⟨"Asbestos Handling".toList, "OTHER".toList, some 4⟩⟩
  , ⟨anyLit ["scaffolding".toList, "scaffold erection".toList],
      ⟨"Scaffolding Work".toList, "HEIGHT_WORK".toList, some 2⟩⟩
  , ⟨anyLit ["rigging".toList, "lifting equipment".toList],
      ⟨"Rigging Work".toList, "OTHER".toList, some 2⟩⟩
  ]

/-- `detectHRWFactors` (lines 840-854): filter the table by pattern match. -/
def detectHRWFactors (text : Str) : List HRWFactor :=
  let l := lowerStr text
  (hrwTable.filter (fun r => r.test l)).map (·.factor)

/-- The five `fatalFivePatterns` (lines 537-543 and 718-724). -/
def fatalFiveDetected (text : Str) : Bool :=
  let l := lowerStr text
  anyLit ["mobile plant".toList, "vehicle".toList, "machinery".toList, "crane".toList, "forklift".toList] l
  || anyLit ["height".toList, "fall".toList, "ladder".toList, "scaffold".toList, "roof".toList] l
  || anyLit ["electric".toList, "electrical".toList, "power".toList, "voltage".toList] l
  || anyLit ["h2s".toList, "hydrogen sulfide".toList, "gas".toList, "chemical".toList, "hazardous substance".toList] l
  || anyLit ["manual handling".toList, "lifting".toList, "ergonomic".toList] l

/-- HRW contribution inside both escalation routines (lines 529-534 and
710-715): the single largest `riskEscalation` (default 2) when any HRW
factor matched, else nothing. -/
def hrwEscContribution (hrw : List HRWFactor) : Nat :=
  if hrw.isEmpty then 0
  else listMax (hrw.map (fun f => jsOrNat f.riskEscalation 2))

/-! ## Violation detector (`extractBasicHazards`, lines 856-916) -/

/-- A basic hazard record as pushed by `extractBasicHazards`. -/
structure BasicHazard where
  type : Str
  description : Str
  severity : Str
  controlMeasures : List Str
  isControlled : Bool
deriving DecidableEq

/-- A row of either hazard table: a text test plus the hazard pushed. -/
structure BasicRule where
  test : Str → Bool
  hazard : BasicHazard

/-- Helper to build the hazard record (`controlMeasures: []`,
`isControlled: false` on every row of both tables). -/
def mkHaz (ty desc sev : String) : BasicHazard :=
  ⟨ty.toList, desc.toList, sev.toList, [], false⟩

/-- The `hazardPatterns` table (lines 857-863). -/
def basicTable : List BasicRule :=
  [ ⟨anyLit ["slip".toList, "trip".toList, "fall".toList],
      mkHaz "Physical" "Slip, trip, or fall hazard" "MEDIUM"⟩
  , ⟨anyLit ["chemical".toList, "toxic".toList, "corrosive".toList],
      mkHaz "Chemical" "Chemical exposure hazard" "HIGH"⟩
  , ⟨anyLit ["noise".toList, "vibration".toList],
      mkHaz "Physical" "Noise or vibration exposure" "MEDIUM"⟩
  , ⟨anyLit ["fire".toList, "explosion".toList, "flammable".toList],
      mkHaz "Fire/Explosion" "Fire or explosion risk" "CRITICAL"⟩
  , ⟨anyLit ["manual handling".toList, "lifting".toList],
      mkHaz "Ergonomic" "Manual handling injury risk" "MEDIUM"⟩
  ]

/-- `/H2S monitor.*[✗xX]|[✗xX].*H2S monitor/i`. -/
def h2sNegTest (l : Str) : Bool :=
  seq2 (.lit "h2s monitor".toList) negCls l || seq2 negCls (.lit "h2s monitor".toList) l

/-- `/hearing protection.*[✗xX]|[✗xX].*hearing protection/i`. -/
def hearingNegTest (l : Str) : Bool :=
  seq2 (.lit "hearing protection".toList) negCls l
  || seq2 negCls (.lit "hearing protection".toList) l

/-- `/weather conditions.*[✗xX]|[✗xX].*weather conditions/i`. -/
def weatherNegTest (l : Str) : Bool :=
  seq2 (.lit "weather conditions".toList) negCls l
  || seq2 negCls (.lit "weather conditions".toList) l

/-- `/work surfaces.*[✗xX]|[✗xX].*work surfaces|surfaces.*level.*[✗xX]/i`
(the escalation-table version, without the `loose.*uneven` branch). -/
def surfacesNegTest (l : Str) : Bool :=
  seq2 (.lit "work surfaces".toList) negCls l
  || seq2 negCls (.lit "work surfaces".toList) l
  || seq3 (.lit "surfaces".toList) (.lit "level".toList) negCls l

/-- `/barricad.*[✗xX]|[✗xX].*barricad/i`. -/
def barricadNegTest (l : Str) : Bool :=
  seq2 (.lit "barricad".toList) negCls l || seq2 negCls (.lit "barricad".toList) l

/-- `/tools.*secured.*[✗xX]|[✗xX].*tools.*secured/i`. -/
def toolsNegTest (l : Str) : Bool :=
  seq3 (.lit "tools".toList) (.lit "secured".toList) negCls l
  || seq3 negCls (.lit "tools".toList) (.lit "secured".toList) l

/-- `/ladder.*safety.*[✗xX]|[✗xX].*ladder/i` (escalation table, no lookahead). -/
def ladderNegTest (l : Str) : Bool :=
  seq3 (.lit "ladder".toList) (.lit "safety".toList) negCls l
  || seq2 negCls (.lit "ladder".toList) l

/-- `/fall protection.*[✗xX]|[✗xX].*fall protection/i` (escalation table). -/
def fallProtNegTest (l : Str) : Bool :=
  seq2 (.lit "fall protection".toList) negCls l
  || seq2 negCls (.lit "fall protection".toList) l

/-- The `checkboxViolations` table of `extractBasicHazards`
(lines 866-876).  The `ladder` and `fall protection` rows carry a
`(?!.*✓)` lookahead in this table (only), and the `work surfaces` row has
an extra `loose.*uneven.*[✗xX]` branch. -/
def checkboxTable : List BasicRule :=
  [ ⟨h2sNegTest,
      mkHaz "Chemical" "H2S monitor not worn in breathing zone - CRITICAL gas exposure risk" "CRITICAL"⟩
  , ⟨hearingNegTest,
      mkHaz "PPE" "Hearing protection not worn in high noise area" "MEDIUM"⟩
  , ⟨weatherNegTest,
      mkHaz "Environmental" "Weather conditions not properly considered" "HIGH"⟩
  , ⟨fun l => surfacesNegTest l || seq3 (.lit "loose".toList) (.lit "uneven".toList) negCls l,
      mkHaz "Physical" "Work surfaces loose, uneven or unsafe" "HIGH"⟩
  , ⟨barricadNegTest,
      mkHaz "Physical" "Barricading/exclusion zones not established" "HIGH"⟩
  , ⟨toolsNegTest,
      mkHaz "Physical" "Tools not secured at height - falling object hazard" "HIGH"⟩
  , ⟨fun l =>
      seq3 (.lit "ladder".toList) (.lit "safety".toList) negCls l
      || ((seq2Ends negCls (.lit "ladder".toList) l).any (fun rem => !(laChk rem))),
      mkHaz "Fall Protection" "Ladder safety requirements not met" "HIGH"⟩
  , ⟨fun l =>
      ((seq2Ends (.lit "fall protection".toList) negCls l).any (fun rem => !(laChk rem)))
      || ((seq2Ends negCls (.lit "fall protection".toList) l).any (fun rem => !(laChk rem))),
      mkHaz "Fall Protection" "Fall protection equipment missing or inadequate" "CRITICAL"⟩
  ]

/-- `extractBasicHazards` (lines 856-916).  The `positivePatterns` list
declared at lines 879-885 of the source is dead code — it is never
consulted — so the checkbox rows fire on their negative signature alone. -/
def extractBasicHazards (text : Str) : List BasicHazard :=
  let l := lowerStr text
  ((basicTable.filter (fun r => r.test l)).map (·.hazard))
  ++ ((checkboxTable.filter (fun r => r.test l)).map (·.hazard))

/-! ## Checkbox escalation (`applyHRWEscalation`, lines 778-802)

Each escalation row pairs the negative signature with its weight; the
source derives the positive-confirmation signature by textually replacing
`[✗xX]` with `[✓✔]` in the pattern, and only escalates when the positive
signature does not match.  The `posTest` fields below are exactly the
result of that substitution. -/

structure EscRule where
  negTest : Str → Bool
  posTest : Str → Bool
  escalation : Nat

def h2sPosTest (l : Str) : Bool :=
  seq2 (.lit "h2s monitor".toList) posCls l || seq2 posCls (.lit "h2s monitor".toList) l

def hearingPosTest (l : Str) : Bool :=
  seq2 (.lit "hearing protection".toList) posCls l
  || seq2 posCls (.lit "hearing protection".toList) l

def weatherPosTest (l : Str) : Bool :=
  seq2 (.lit "weather conditions".toList) posCls l
  || seq2 posCls (.lit "weather conditions".toList) l

def surfacesPosTest (l : Str) : Bool :=
  seq2 (.lit "work surfaces".toList) posCls l
  || seq2 posCls (.lit "work surfaces".toList) l
  || seq3 (.lit "surfaces".toList) (.lit "level".toList) posCls l

def barricadPosTest (l : Str) : Bool :=
  seq2 (.lit "barricad".toList) posCls l || seq2 posCls (.lit "barricad".toList) l

def toolsPosTest (l : Str) : Bool :=
  seq3 (.lit "tools".toList) (.lit "secured".toList) posCls l
  || seq3 posCls (.lit "tools".toList) (.lit "secured".toList) l

def ladderPosTest (l : Str) : Bool :=
  seq3 (.lit "ladder".toList) (.lit "safety".toList) posCls l
  || seq2 posCls (.lit "ladder".toList) l

def fallProtPosTest (l : Str) : Bool :=
  seq2 (.lit "fall protection".toList) posCls l
  || seq2 posCls (.lit "fall protection".toList) l

/-- The `criticalViolations` table (lines 778-788). -/
def escTable : List EscRule :=
  [ ⟨h2sNegTest, h2sPosTest, 4⟩
  , ⟨hearingNegTest, hearingPosTest, 1⟩
  , ⟨weatherNegTest, weatherPosTest, 2⟩
  , ⟨surfacesNegTest, surfacesPosTest, 2⟩
  , ⟨barricadNegTest, barricadPosTest, 2⟩
  , ⟨toolsNegTest, toolsPosTest, 2⟩
  , ⟨ladderNegTest, ladderPosTest, 2⟩
  , ⟨fallProtNegTest, fallProtPosTest, 3⟩
  ]

/-- The checkbox-violation escalation accumulated by the `forEach` at
lines 790-802: each rule contributes its weight at most once, and only
when its negative signature matches while its positive-confirmation
signature does not. -/
def checkboxEscalation (text : Str) : Nat :=
  let l := lowerStr text
  (escTable.map (fun r => if r.negTest l && !(r.posTest l) then r.escalation else 0)).sum

/-- Count of CRITICAL, uncontrolled hazards (lines 552-564 and 805-814). -/
def criticalUncontrolledCount (hazards : List BasicHazard) : Nat :=
  (hazards.filter (fun h => h.severity == "CRITICAL".toList && !h.isControlled)).length

/-- `applyHRWEscalation` (lines 707-826): base score plus HRW, Fatal-Five,
checkbox-violation and critical-uncontrolled escalations, capped at 10. -/
def applyHRWEscalation (baseScore : Nat) (hrwFactors : List HRWFactor)
    (hazards : List BasicHazard) (originalText : Str) : Nat :=
  let escalation := hrwEscContribution hrwFactors
  let escalation := escalation + (if fatalFiveDetected originalText then 1 else 0)
  let escalation := escalation + checkboxEscalation originalText
  let escalation := escalation + criticalUncontrolledCount hazards
  min 10 (baseScore + escalation)

/-! ## AnalysisResult shape -/

/-- A flagged issue as produced by the pipeline (the JSON
`flaggedIssues[]` entries). -/
structure FlaggedIssue where
  category : Str
  description : Str
  severity : Str
  recommendation : Str
  location : Str
  controlMeasures : List Str
  additionalControls : List Str
  isControlled : Bool
deriving DecidableEq

structure ComplianceIssue where
  standard : Str
  issue : Str
  action : Str
  severity : Str
deriving DecidableEq

structure PPEItem where
  type : Str
  specification : Str
  mandatory : Bool
  mentioned : Bool
deriving DecidableEq

structure RiskAssessment where
  initialRisk : Str
  controlsImplemented : List Str
  residualRisk : Str
  consequence : Nat
  likelihood : Nat
  riskRating : Nat
deriving DecidableEq

structure WorkerDetails where
  signaturesPresent : Bool
  supervisorApproval : Bool
  dateCompleted : Option Str
deriving DecidableEq

structure EmergencyProcedures where
  mentioned : Bool
  details : List Str
deriving DecidableEq

/-- The canonical AnalysisResult produced by `enhanceAnalysisResult` and
`getFallbackAnalysis`.  Wall-clock fields (`processingTime`,
`metadata.processingTimeMs`, `metadata.timestamp`) and the untyped legacy
mirrors (`hazards`, `overallRiskAssessment`, `confidence`) are omitted;
provenance is kept as `analysisProvider` / `analysisStatus` /
`metaProvider` / `metaError` (the `metadata.provider` and
`metadata.error` fields). -/
structure Analysis where
  formType : Str
  formTypeConfidence : Str
  riskScore : Nat
  riskLevel : Str
  flaggedIssues : List FlaggedIssue
  hrwFactors : List HRWFactor
  ppeRequired : List PPEItem
  complianceIssues : List ComplianceIssue
  riskAssessment : RiskAssessment
  summary : Str
  requiresSupervisorReview : Bool
  formCompleteness : Str
  missingFields : List Str
  positiveFindings : List Str
  workLocation : Str
  workActivity : Str
  workerDetails : WorkerDetails
  emergencyProcedures : EmergencyProcedures
  analysisProvider : Str
  analysisStatus : Str
  metaProvider : Str
  metaError : Option Str
deriving DecidableEq

/-- The object obtained from `JSON.parse` on a backend reply.  `none`
models an absent field; an absent or empty string (both falsy in JS) is
modelled by `[]`. -/
structure ParsedObj where
  formType : Str
  formTypeConfidence : Str
  riskScore : Option Nat
  flaggedIssues : Option (List FlaggedIssue)
  hrwFactors : Option (List HRWFactor)
  ppeRequired : Option (List PPEItem)
  complianceIssues : Option (List ComplianceIssue)
  riskAssessment : Option RiskAssessment
  summary : Str
  formCompleteness : Str
  missingFields : Option (List Str)
  positiveFindings : Option (List Str)
  workLocation : Str
  workActivity : Str
  workerDetails : Option WorkerDetails
  emergencyProcedures : Option EmergencyProcedures

/-- Critical/uncontrolled count over flagged issues (lines 552-564). -/
def criticalUncontrolledIssues (issues : List FlaggedIssue) : Nat :=
  (issues.filter (fun h => h.severity == "CRITICAL".toList && !h.isControlled)).length

/-- `calculateSupervisorReview` (lines 620-637). -/
def calculateSupervisorReview (analysis : ParsedObj) (riskScore : Nat) : Bool :=
  if 7 ≤ riskScore then true
  else if (analysis.flaggedIssues.getD []).any (fun issue => issue.severity == "CRITICAL".toList) then true
  else if analysis.formCompleteness = "INCOMPLETE".toList ∧ 5 ≤ riskScore then true
  else if (analysis.complianceIssues.getD []).any
      (fun issue => issue.severity == "HIGH".toList || issue.severity == "CRITICAL".toList) then true
  else false

/-- `enhanceAnalysisResult` (lines 522-618).  On every call path the
caller has already defaulted the optional arrays, so `getD []` agrees
with the source's direct field reads. -/
def enhanceAnalysisResult (analysis : ParsedObj) (originalText : Str) : Analysis :=
  let baseScore := jsOrNat analysis.riskScore (calculateBaseRiskScore originalText)
  let hrw := analysis.hrwFactors.getD []
  let flagged := analysis.flaggedIssues.getD []
  let escalation := hrwEscContribution hrw
  let escalation := escalation + (if fatalFiveDetected originalText then 1 else 0)
  let escalation := escalation + criticalUncontrolledIssues flagged
  let finalScore := min 10 (baseScore + escalation)
  { formType := analysis.formType
    formTypeConfidence := jsOrStr analysis.formTypeConfidence "HIGH".toList
    riskScore := finalScore
    riskLevel := getRiskLevel finalScore
    flaggedIssues := flagged
    hrwFactors := hrw
    ppeRequired := analysis.ppeRequired.getD []
    complianceIssues := analysis.complianceIssues.getD []
    riskAssessment := analysis.riskAssessment.getD
      ⟨getRiskLevel baseScore, [], getRiskLevel finalScore, 3, 3, 9⟩
    summary := jsOrStr analysis.summary "Enhanced safety analysis completed".toList
    requiresSupervisorReview := calculateSupervisorReview analysis finalScore
    formCompleteness := jsOrStr analysis.formCompleteness "PARTIALLY_COMPLETE".toList
    missingFields := analysis.missingFields.getD []
    positiveFindings := analysis.positiveFindings.getD []
    workLocation := jsOrStr analysis.workLocation "Not specified".toList
    workActivity := jsOrStr analysis.workActivity "Not specified".toList
    workerDetails := analysis.workerDetails.getD ⟨false, false, none⟩
    emergencyProcedures := analysis.emergencyProcedures.getD ⟨false, []⟩
    analysisProvider := "ai".toList
    analysisStatus := "COMPLETED".toList
    metaProvider := []
    metaError := none }

/-- Conversion of a detected `BasicHazard` to a flagged issue as done in
`getFallbackAnalysis` (lines 650-659). -/
def basicToFlagged (h : BasicHazard) : FlaggedIssue :=
  { category := h.type
    description := h.description
    severity := h.severity
    recommendation := "Manual review required".toList
    location := "Detected by fallback analysis".toList
    controlMeasures := h.controlMeasures
    additionalControls := []
    isControlled := h.isControlled }

/-- The single synthetic compliance issue of the fallback result
(lines 662-667). -/
def fallbackComplianceIssue : ComplianceIssue :=
  ⟨"System Error".toList,
   "AI analysis service error - manual review required".toList,
   "Please review form manually and verify all safety requirements".toList,
   "HIGH".toList⟩

/-- `getFallbackAnalysis` (lines 639-705); `err` is the triggering
error's message when there is one. -/
def getFallbackAnalysis (text : Str) (err : Option Str) : Analysis :=
  let baseScore := calculateBaseRiskScore text
  let hrwFactors := detectHRWFactors text
  let hazards := extractBasicHazards text
  let finalScore := applyHRWEscalation baseScore hrwFactors hazards text
  { formType := "UNKNOWN".toList
    formTypeConfidence := "LOW".toList
    riskScore := finalScore
    riskLevel := getRiskLevel finalScore
    flaggedIssues := hazards.map basicToFlagged
    hrwFactors := hrwFactors
    ppeRequired := []
    complianceIssues := [fallbackComplianceIssue]
    riskAssessment := ⟨getRiskLevel baseScore, [], getRiskLevel finalScore, 3, 3, 9⟩
    summary :=
      match err with
      | some m => "Analysis failed: ".toList ++ m ++ " - requires immediate manual safety review".toList
      | none => "Fallback analysis completed".toList
    requiresSupervisorReview := true
    formCompleteness := "REQUIRES_REVIEW".toList
    missingFields := ["AI analysis failed".toList]
    positiveFindings := []
    workLocation := "Not specified".toList
    workActivity := "Not specified".toList
    workerDetails := ⟨false, false, none⟩
    emergencyProcedures := ⟨false, []⟩
    analysisProvider := "fallback".toList
    analysisStatus := "FAILED".toList
    metaProvider := "fallback".toList
    metaError := err }

/-! ## Response normalization (`parseEnhancedAIResponse`, lines 414-520) -/

/-- The H2S direct-violation record injected at lines 434-447. -/
def h2sInjIssue : FlaggedIssue :=
  { category := "CHEMICAL".toList
    description := "H2S monitor not worn within breathing zone - CRITICAL gas exposure risk".toList
    severity := "CRITICAL".toList
    recommendation := "Immediately require H2S monitor to be worn in breathing zone".toList
    location := "Personal Protective Equipment section".toList
    controlMeasures := []
    additionalControls := ["H2S monitor must be worn".toList, "Gas detection protocols".toList]
    isControlled := false }

/-- The hearing-protection record injected at lines 450-461. -/
def hearingInjIssue : FlaggedIssue :=
  { category := "PPE".toList
    description := "Hearing protection not worn (marked with 0)".toList
    severity := "HIGH".toList
    recommendation := "Ensure hearing protection is worn in high noise areas".toList
    location := "Personal Protective Equipment section".toList
    controlMeasures := []
    additionalControls := ["Hearing protection mandatory".toList]
    isControlled := false }

/-- The loose-surfaces record injected at lines 464-475. -/
def looseInjIssue : FlaggedIssue :=
  { category := "PHYSICAL".toList
    description := "Loose or uneven work surfaces with slip/trip potential".toList
    severity := "HIGH".toList
    recommendation := "Secure all work surfaces and ensure stable footing".toList
    location := "Work environment assessment".toList
    controlMeasures := []
    additionalControls := ["Surface stabilization".toList, "Non-slip materials".toList]
    isControlled := false }

/-- `/H2S monitor worn within breathing zone(?!\s*☑)/i`. -/
def h2sInjTest (l : Str) : Bool :=
  (litEnds "h2s monitor worn within breathing zone".toList l).any (fun rem => !(laWsBox rem))

/-- `/hearing protection worn\s*0/i`. -/
def hearingInjTest (l : Str) : Bool :=
  (litEnds "hearing protection worn".toList l).any
    (fun rem =>
      match rem.dropWhile isWs with
      | c :: _ => c == '0'
      | [] => false)

/-- `/loose or uneven work surfaces/i`. -/
def looseInjTest (l : Str) : Bool :=
  hasSub "loose or uneven work surfaces".toList l

/-- The `detectedViolations` direct pass over the original extracted text
(lines 431-475). -/
def detectViolations (originalText : Str) : List FlaggedIssue :=
  let l := lowerStr originalText
  (if h2sInjTest l then [h2sInjIssue] else [])
  ++ (if hearingInjTest l then [hearingInjIssue] else [])
  ++ (if looseInjTest l then [looseInjIssue] else [])

inductive ParseErr where
  | noJson
  | jsonParse
  | missingFields
deriving DecidableEq

/-- Injection of the detected violations into the parsed object
(lines 477-494): violations are prepended and the risk score is escalated
by 2 per violation, capped at 10.  An absent risk score stays absent
(`undefined + n` is `NaN`, which remains falsy for the validation that
follows). -/
def injectViolations (parsed : ParsedObj) (originalText : Str) : ParsedObj :=
  let viol := detectViolations originalText
  if viol.length > 0 then
    { parsed with
      flaggedIssues := some (viol ++ parsed.flaggedIssues.getD [])
      riskScore := parsed.riskScore.map (fun v => min 10 (v + viol.length * 2)) }
  else parsed

/-- Validation plus defaulting plus enhancement: the body of the `try`
block of `parseEnhancedAIResponse` after `JSON.parse` succeeded
(lines 430-509).  `!parsed.formType || !parsed.riskScore` throws
`Missing required fields` (`.missingFields`). -/
def normalizeObj (parsed : ParsedObj) (originalText : Str) : Except ParseErr Analysis :=
  let parsed := injectViolations parsed originalText
  if parsed.formType = [] ∨ parsed.riskScore = none ∨ parsed.riskScore = some 0 then
    .error .missingFields
  else
    let parsed :=
      { parsed with
        flaggedIssues := some (parsed.flaggedIssues.getD [])
        hrwFactors := some (parsed.hrwFactors.getD [])
        ppeRequired := some (parsed.ppeRequired.getD [])
        complianceIssues := some (parsed.complianceIssues.getD []) }
    .ok (enhanceAnalysisResult parsed originalText)

/-- Remove every occurrence of `pat` from `s`, scanning left to right
(the effect of one `String.replace(/…/g, '')` for a literal pattern).
Recursion is by fuel so the definition reduces in the kernel; every step
consumes at least one character, so `s.length` units of fuel always
suffice. -/
def removeOccAux (fuel : Nat) (pat : Str) (s : Str) : Str :=
  match fuel with
  | 0 => s
  | fuel + 1 =>
    match s with
    | [] => []
    | c :: t =>
      if pat ≠ [] ∧ pat.isPrefixOf (c :: t) then removeOccAux fuel pat ((c :: t).drop pat.length)
      else c :: removeOccAux fuel pat t

def removeOcc (pat : Str) (s : Str) : Str := removeOccAux s.length pat s

/-- The backtick character. -/
def bq : Char := Char.ofNat 96

/-- Code-fence stripping (lines 420-421).  The `\s*` parts of the
replacement patterns only delete whitespace and are omitted: they cannot
change where a brace-delimited JSON object is located. -/
def stripFences (s : Str) : Str :=
  removeOcc [bq, bq, bq] (removeOcc [bq, bq, bq, 'j', 's', 'o', 'n'] s)

/-- `cleanResponse.match(/\{[\s\S]*\}/)` (lines 424-427): the greedy match
runs from the first `{` to the last `}`; `none` when no such object
exists. -/
def locateJson (s : Str) : Option Str :=
  let t := s.dropWhile (fun c => !(c == '{'))
  let r := t.reverse.dropWhile (fun c => !(c == '}'))
  if r.isEmpty then none else some r.reverse

/-- The `try` body of `parseEnhancedAIResponse` (lines 414-509).
`JSON.parse` is an external collaborator and is passed in as `decode`
(`none` models a `SyntaxError`). -/
def parseCore (decode : Str → Option ParsedObj) (responseText originalText : Str) :
    Except ParseErr Analysis :=
  match locateJson (stripFences responseText) with
  | none => .error .noJson
  | some seg =>
    match decode seg with
    | none => .error .jsonParse
    | some parsed => normalizeObj parsed originalText

/-- `parseEnhancedAIResponse` including its `catch` (lines 511-519),
which falls back to `getFallbackAnalysis`. -/
def parseEnhancedAIResponse (decode : Str → Option ParsedObj)
    (responseText originalText : Str) : Analysis :=
  match parseCore decode responseText originalText with
  | .ok a => a
  | .error _ => getFallbackAnalysis originalText (some "parse failure".toList)

/-! ## Provider orchestration (`analyzeSafetyForm`, lines 49-149)

Each provider attempt either throws (network/auth/malformed — modelled as
`.fail` with the error message) or returns an analysis (`.ok` with the
provider's name).  A returned result is accepted only when its form type
is truthy and not the `UNKNOWN` sentinel. -/

inductive ProviderOutcome where
  | fail (errMsg : Str)
  | ok (provider : Str) (result : Analysis)
deriving DecidableEq

/-- The provider loop with its `lastError` accumulator (lines 88-140).
On acceptance the result's provenance is stamped with the winning
provider (`result.metadata.provider`, line 113-118); on exhaustion the
fallback analysis is returned (line 148). -/
def analyzeLoop (outcomes : List ProviderOutcome) (lastErr : Option Str) (text : Str) : Analysis :=
  match outcomes with
  | [] => getFallbackAnalysis text lastErr
  | .ok provider r :: rest =>
    if r.formType ≠ [] ∧ r.formType ≠ "UNKNOWN".toList then
      { r with metaProvider := provider }
    else analyzeLoop rest lastErr text
  | .fail e :: rest => analyzeLoop rest (some e) text

/-- `analyzeSafetyForm` (lines 49-149), abstracted over the remote
calls' outcomes. -/
def analyzeSafetyForm (outcomes : List ProviderOutcome) (text : Str) : Analysis :=
  analyzeLoop outcomes none text

/-- How one attempt updates the loop's `lastError`. -/
def lastErrStep (acc : Option Str) (o : ProviderOutcome) : Option Str :=
  match o with
  | .fail e => some e
  | .ok _ _ => acc

/-- Message of the last failing outcome — the source's `lastError` at
loop exit. -/
def lastErrOf (outcomes : List ProviderOutcome) : Option Str :=
  outcomes.foldl lastErrStep none

/-! ## Contextual re-scoring (`formProcessor.js`,
`calculateEnhancedRiskScore`, lines 235-270).  The arguments are the
fields the source reads from `(analysis, ocrResult, metadata)`. -/

def calculateEnhancedRiskScore (analysisRiskScore : Nat) (formCompleteness : Str)
    (missingFields : List Str) (ocrConfidence : Nat) (captureMethod : Str) : Nat :=
  let riskScore := if analysisRiskScore = 0 then 5 else analysisRiskScore
  let riskScore :=
    if ocrConfidence < 30 then min 10 (riskScore + 2)
    else if ocrConfidence < 50 then min 10 (riskScore + 1)
    else riskScore
  let riskScore :=
    if captureMethod = "mobile_camera".toList ∧ ocrConfidence < 80 then min 10 (riskScore + 1)
    else riskScore
  let riskScore :=
    if formCompleteness = "INCOMPLETE".toList then min 10 (riskScore + 1) else riskScore
  let riskScore :=
    if missingFields.length > 2 then min 10 (riskScore + 1) else riskScore
  riskScore

/-! ## Tracking lifecycle (trackingService.js)

`updateFormProcessingOCR` leaves `processing_status` untouched;
`updateFormProcessingAI` sets `processing_status = 'completed'` and
`markFormProcessingError` sets `processing_status = 'failed'`, each with
a bare `WHERE id = $1` — neither guards on the record's current status.
`createFormProcessingRecord` inserts a fresh record whose status is the
schema default `processing`. -/

inductive FormStatus where
  | processing
  | completed
  | failed
deriving DecidableEq

inductive TrackOp where
  | updateOCR
  | updateAI
  | markError
deriving DecidableEq

/-- Effect of one tracking operation on a record's status. -/
def applyOp : TrackOp → FormStatus → FormStatus
  | .updateOCR, s => s
  | .updateAI, _ => .completed
  | .markError, _ => .failed

/-- Status after a sequence of tracking operations. -/
def runOps (ops : List TrackOp) (s : FormStatus) : FormStatus :=
  ops.foldl (fun st op => applyOp op st) s

/-- Status of a freshly created record (`createFormProcessingRecord`). -/
def createStatus : FormStatus := .processing

/-! ## Concrete inputs used by the theorems below -/

/-- A parsed object with every optional field absent and every string
field empty (all falsy in JS). -/
def emptyParsed : ParsedObj :=
  { formType := []
    formTypeConfidence := []
    riskScore := none
    flaggedIssues := none
    hrwFactors := none
    ppeRequired := none
    complianceIssues := none
    riskAssessment := none
    summary := []
    formCompleteness := []
    missingFields := none
    positiveFindings := none
    workLocation := []
    workActivity := []
    workerDetails := none
    emergencyProcedures := none }

/-- Serialization of an already-normalized AnalysisResult back into the
schema (every field present). -/
def toParsedObj (a : Analysis) : ParsedObj :=
  { formType := a.formType
    formTypeConfidence := a.formTypeConfidence
    riskScore := some a.riskScore
    flaggedIssues := some a.flaggedIssues
    hrwFactors := some a.hrwFactors
    ppeRequired := some a.ppeRequired
    complianceIssues := some a.complianceIssues
    riskAssessment := some a.riskAssessment
    summary := a.summary
    formCompleteness := a.formCompleteness
    missingFields := some a.missingFields
    positiveFindings := some a.positiveFindings
    workLocation := a.workLocation
    workActivity := a.workActivity
    workerDetails := some a.workerDetails
    emergencyProcedures := some a.emergencyProcedures }

/-- A 1005-character text containing hazard, emergency and control
vocabulary and nothing else that any rule matches. -/
def c4Text : Str := "hazard emergency control ".toList ++ List.replicate 980 'q'

/-- A backend reply object carrying a risk score and one HRW factor. -/
def c8Obj : ParsedObj :=
  { emptyParsed with
    formType := "SWMS".toList
    riskScore := some 5
    hrwFactors := some [⟨"Electrical Work".toList, "ELECTRICAL".toList, some 4⟩] }

/-- A benign original text matching no rule at all. -/
def c8Text : Str := "qqq".toList

/-- A backend reply object with a score and no escalation source. -/
def c8WObj : ParsedObj :=
  { emptyParsed with formType := "SWMS".toList, riskScore := some 5 }

/-- The first normalization of `c8WObj` (what `normalizeObj` produces on
it, written out so the round-trip witness can name it). -/
def c8WA : Analysis :=
  enhanceAnalysisResult
    { c8WObj with
      flaggedIssues := some [], hrwFactors := some [],
      ppeRequired := some [], complianceIssues := some [] }
    c8Text

/-- A text in which the hearing-protection item carries both a cross and
a check mark. -/
def c6Text : Str := "x hearing protection ✓".toList

/-- The hazard record of the hearing-protection checkbox rule. -/
def hearingHazard : BasicHazard :=
  mkHaz "PPE" "Hearing protection not worn in high noise area" "MEDIUM"

/-! ## Helper lemmas -/

theorem startScan_self {f : Str → Bool} {txt : Str} (h : f txt = true) :
    startScan f txt = true := by
  cases txt with
  | nil => simpa [startScan] using h
  | cons c t => simp [startScan, h]

theorem startScan_append {f : Str → Bool} {rest : Str} (pre : Str)
    (h : startScan f rest = true) : startScan f (pre ++ rest) = true := by
  induction pre with
  | nil => simpa
  | cons c p ih => simp [startScan, ih]

theorem isPrefixOf_append_self (s rest : Str) : s.isPrefixOf (s ++ rest) = true := by
  induction s with
  | nil => simp [List.isPrefixOf]
  | cons a as ih => simp [List.isPrefixOf, ih]

theorem gapFind_append {a : Atom} {k : Str → Bool} {rest : Str} (m : Str)
    (hm : ∀ c ∈ m, isLineTerm c = false) (h : gapFind a k rest = true) :
    gapFind a k (m ++ rest) = true := by
  induction m with
  | nil => simpa
  | cons c m' ih =>
    have hc : isLineTerm c = false := hm c (List.mem_cons_self c m')
    have ih' := ih (fun x hx => hm x (List.mem_cons_of_mem c hx))
    cases hmt : atomAt a (c :: (m' ++ rest)) with
    | some r =>
      simp only [gapFind, hmt, Bool.or_eq_true, Bool.and_eq_true]
      exact Or.inr ⟨by simpa using hc, ih'⟩
    | none => simp [gapFind, hmt, hc, ih']

theorem startScan_exists {f : Str → Bool} {txt : Str} (h : startScan f txt = true) :
    ∃ s : Str, s.IsSuffix txt ∧ f s = true := by
  induction txt with
  | nil => exact ⟨[], List.suffix_rfl, by simpa [startScan] using h⟩
  | cons c t ih =>
    simp only [startScan, Bool.or_eq_true] at h
    cases h with
    | inl h => exact ⟨c :: t, List.suffix_rfl, h⟩
    | inr h =>
      obtain ⟨s, hs, hf⟩ := ih h
      exact ⟨s, hs.trans (List.suffix_cons c t), hf⟩

theorem gapFind_exists_cls {cs : Str} {k : Str → Bool} {txt : Str}
    (h : gapFind (.cls cs) k txt = true) : ∃ c ∈ txt, c ∈ cs := by
  induction txt with
  | nil => simp [gapFind, atomAt] at h
  | cons c t ih =>
    by_cases hc : c ∈ cs
    · exact ⟨c, List.mem_cons_self c t, hc⟩
    · simp only [gapFind, atomAt, hc, if_false, Bool.or_eq_true, Bool.and_eq_true] at h
      rcases h with h | ⟨-, h⟩
      · cases h
      · obtain ⟨c', hc', hmem⟩ := ih h
        exact ⟨c', List.mem_cons_of_mem c hc', hmem⟩

theorem listMax_acc_le (l : List Nat) (acc : Nat) : acc ≤ l.foldl Nat.max acc := by
  induction l generalizing acc with
  | nil => simp
  | cons a t ih => exact le_trans (Nat.le_max_left acc a) (ih (Nat.max acc a))

theorem le_listMax_of_mem {l : List Nat} {x : Nat} (h : x ∈ l) : x ≤ listMax l := by
  unfold listMax
  generalize 0 = acc
  induction l generalizing acc with
  | nil => cases h
  | cons a t ih =>
    rcases List.mem_cons.mp h with rfl | h'
    · exact le_trans (Nat.le_max_right acc x) (listMax_acc_le t _)
    · exact ih h' _

theorem listMax_eq_acc_or_mem (l : List Nat) (acc : Nat) :
    l.foldl Nat.max acc = acc ∨ l.foldl Nat.max acc ∈ l := by
  induction l generalizing acc with
  | nil => exact Or.inl rfl
  | cons a t ih =>
    rcases ih (Nat.max acc a) with h | h
    · have hm : Nat.max acc a = acc ∨ Nat.max acc a = a := max_choice acc a
      rcases hm with hm | hm
      · exact Or.inl (by rw [List.foldl_cons, h, hm])
      · exact Or.inr (by rw [List.foldl_cons, h, hm]; exact List.mem_cons_self a t)
    · exact Or.inr (List.mem_cons_of_mem a h)

theorem jsOrNat_pos {o : Option Nat} {d : Nat} (hd : 1 ≤ d) : 1 ≤ jsOrNat o d := by
  unfold jsOrNat
  cases o with
  | none => exact hd
  | some n =>
    by_cases hn : n = 0
    · simpa [hn]
    · simpa [hn] using Nat.one_le_iff_ne_zero.mpr hn

theorem calculateBaseRiskScore_pos (text : Str) : 1 ≤ calculateBaseRiskScore text := by
  simp only [calculateBaseRiskScore]
  split_ifs <;> simp [Nat.le_min]

theorem injectViolations_nil {t : Str} (p : ParsedObj) (h : detectViolations t = []) :
    injectViolations p t = p := by
  simp only [injectViolations]
  rw [h]
  simp

theorem injectViolations_formType (p : ParsedObj) (t : Str) :
    (injectViolations p t).formType = p.formType := by
  simp only [injectViolations]
  split <;> rfl

theorem injectViolations_riskScore_none {p : ParsedObj} (t : Str) (h : p.riskScore = none) :
    (injectViolations p t).riskScore = none := by
  simp only [injectViolations]
  split <;> simp [h]

/-! ## Claim theorems -/

/-- C2: for every normalized analysis with final score `s`, the
supervisor-review flag is true exactly when `s ≥ 7`, or some flagged
issue has severity CRITICAL, or form completeness is `INCOMPLETE` and
`s ≥ 5`, or some compliance issue has severity HIGH or CRITICAL; in all
other cases it is false. -/
theorem c2_supervisor_review_iff (a : ParsedObj) (s : Nat) :
    calculateSupervisorReview a s = true ↔
      (7 ≤ s
       ∨ (∃ i ∈ a.flaggedIssues.getD [], i.severity = "CRITICAL".toList)
       ∨ (a.formCompleteness = "INCOMPLETE".toList ∧ 5 ≤ s)
       ∨ (∃ i ∈ a.complianceIssues.getD [],
            i.severity = "HIGH".toList ∨ i.severity = "CRITICAL".toList)) := by
  unfold calculateSupervisorReview
  split_ifs with h1 h2 h3 h4 <;>
    simp_all [List.any_eq_true]

/-- C9 counterexample: `failed` and `completed` are not terminal in the
tracking service — `updateFormProcessingAI` moves a failed record to
`completed` and `markFormProcessingError` moves a completed record to
`failed`, because neither SQL update guards on the current status. -/
theorem c9_counterexample :
    runOps [TrackOp.markError] createStatus = FormStatus.failed
    ∧ runOps [TrackOp.markError, TrackOp.updateAI] createStatus = FormStatus.completed
    ∧ runOps [TrackOp.updateAI, TrackOp.markError] createStatus = FormStatus.failed := by
  decide

/-- C9 amended: once a record's status is `failed` or `completed`
(i.e. anything other than `processing`), no sequence of tracking
operations brings it back to the earlier `processing` state; but `failed`
and `completed` are not terminal with respect to each other. -/
theorem c9_no_return_to_processing (ops : List TrackOp) (s : FormStatus)
    (h : s ≠ FormStatus.processing) : runOps ops s ≠ FormStatus.processing := by
  induction ops generalizing s with
  | nil => simpa [runOps] using h
  | cons op rest ih =>
    have hstep : applyOp op s ≠ FormStatus.processing := by
      cases op with
      | updateOCR => simpa [applyOp] using h
      | updateAI => simp [applyOp]
      | markError => simp [applyOp]
    simpa [runOps] using ih (applyOp op s) hstep

theorem c9_witness :
    runOps [TrackOp.updateOCR] FormStatus.completed ≠ FormStatus.processing :=
  c9_no_return_to_processing [TrackOp.updateOCR] FormStatus.completed (by decide)

/-- C3 counterexample: with analysis score 5, OCR confidence 25 and
capture method `mobile_camera`, the contextual re-score is 8, not 7 —
the mobile-capture rule is a separate `if` and applies on top of the
confidence-below-30 branch. -/
theorem c3_counterexample :
    calculateEnhancedRiskScore 5 "COMPLETE".toList [] 25 "mobile_camera".toList ≠ 7
    ∧ calculateEnhancedRiskScore 5 "COMPLETE".toList [] 25 "mobile_camera".toList = 8 := by
  decide

/-- C3 amended: that scenario yields 8 (+2 for confidence < 30 and a
further +1 for mobile capture with confidence < 80), and whenever the
starting score is within the 1–10 scale the contextual adjustments only
move it upward, capped at 10. -/
theorem c3_contextual_rescore (rs : Nat) (fc : Str) (mf : List Str) (conf : Nat) (cm : Str)
    (hstart : (if rs = 0 then 5 else rs) ≤ 10) :
    calculateEnhancedRiskScore 5 "COMPLETE".toList [] 25 "mobile_camera".toList = 8
    ∧ (if rs = 0 then 5 else rs) ≤ calculateEnhancedRiskScore rs fc mf conf cm
    ∧ calculateEnhancedRiskScore rs fc mf conf cm ≤ 10 := by
  refine ⟨by decide, ?_, ?_⟩ <;>
  · simp only [calculateEnhancedRiskScore] at *
    split_ifs at * <;> omega

theorem c3_witness :
    ((if (7:Nat) = 0 then 5 else 7) ≤ 10)
    ∧ (if (7:Nat) = 0 then 5 else 7)
        ≤ calculateEnhancedRiskScore 7 "COMPLETE".toList [] 90 "upload".toList
    ∧ calculateEnhancedRiskScore 7 "COMPLETE".toList [] 90 "upload".toList ≤ 10 :=
  ⟨by decide,
   (c3_contextual_rescore 7 "COMPLETE".toList [] 90 "upload".toList (by decide)).2.1,
   (c3_contextual_rescore 7 "COMPLETE".toList [] 90 "upload".toList (by decide)).2.2⟩

/-- C7: when at least one HRW keyword family matches, the HRW escalation
is the single largest of the matched families' weights (each between 2
and 4), not their sum. -/
theorem c7_hrw_single_largest (text : Str) (h : detectHRWFactors text ≠ []) :
    hrwEscContribution (detectHRWFactors text)
        ∈ (detectHRWFactors text).map (fun f => jsOrNat f.riskEscalation 2)
    ∧ (∀ w ∈ (detectHRWFactors text).map (fun f => jsOrNat f.riskEscalation 2),
        w ≤ hrwEscContribution (detectHRWFactors text))
    ∧ 2 ≤ hrwEscContribution (detectHRWFactors text)
    ∧ hrwEscContribution (detectHRWFactors text) ≤ 4 := by
  have hw : ∀ w ∈ (detectHRWFactors text).map (fun f => jsOrNat f.riskEscalation 2),
      2 ≤ w ∧ w ≤ 4 := by
    intro w hwm
    obtain ⟨f, hf, rfl⟩ := List.mem_map.mp hwm
    have hf' : ∃ r, (r ∈ hrwTable ∧ r.test (lowerStr text) = true) ∧ r.factor = f := by
      simpa [detectHRWFactors, List.mem_filter] using hf
    obtain ⟨r, ⟨hr', _⟩, rfl⟩ := hf'
    simp only [hrwTable, List.mem_cons, List.not_mem_nil, or_false] at hr'
    rcases hr' with rfl | rfl | rfl | rfl | rfl | rfl | rfl | rfl | rfl <;> simp [jsOrNat]
  have hne : (detectHRWFactors text).map (fun f => jsOrNat f.riskEscalation 2) ≠ [] := by
    simpa [List.map_eq_nil_iff] using h
  have hcontrib : hrwEscContribution (detectHRWFactors text)
      = listMax ((detectHRWFactors text).map (fun f => jsOrNat f.riskEscalation 2)) := by
    unfold hrwEscContribution
    rw [if_neg (by simpa [List.isEmpty_iff] using h)]
  obtain ⟨w₀, hw₀⟩ := List.exists_mem_of_ne_nil _ hne
  have hup : ∀ w ∈ (detectHRWFactors text).map (fun f => jsOrNat f.riskEscalation 2),
      w ≤ hrwEscContribution (detectHRWFactors text) := by
    intro w hwm
    rw [hcontrib]
    exact le_listMax_of_mem hwm
  have hlow : 2 ≤ hrwEscContribution (detectHRWFactors text) :=
    le_trans (hw w₀ hw₀).1 (hup w₀ hw₀)
  have hmem : hrwEscContribution (detectHRWFactors text)
      ∈ (detectHRWFactors text).map (fun f => jsOrNat f.riskEscalation 2) := by
    rcases listMax_eq_acc_or_mem
        ((detectHRWFactors text).map (fun f => jsOrNat f.riskEscalation 2)) 0 with h0 | hm
    · exfalso
      have : hrwEscContribution (detectHRWFactors text) = 0 := by
        rw [hcontrib]; exact h0
      omega
    · rw [hcontrib]; exact hm
  exact ⟨hmem, hup, hlow, (hw _ hmem).2⟩

theorem c7_witness :
    2 ≤ hrwEscContribution (detectHRWFactors "electrical work near scaffolding".toList)
    ∧ hrwEscContribution (detectHRWFactors "electrical work near scaffolding".toList) ≤ 4 :=
  ⟨(c7_hrw_single_largest "electrical work near scaffolding".toList (by decide)).2.2.1,
   (c7_hrw_single_largest "electrical work near scaffolding".toList (by decide)).2.2.2⟩

/-- C5: normalization rejects a backend reply (`MalformedResponse`
family) whenever no `{…}` JSON object can be located in it, and whenever
the located object lacks a form type or a numeric risk score. -/
theorem c5_malformed_rejection (decode : Str → Option ParsedObj) (resp orig : Str) :
    (locateJson (stripFences resp) = none →
      parseCore decode resp orig = Except.error ParseErr.noJson)
    ∧ (∀ seg parsed, locateJson (stripFences resp) = some seg → decode seg = some parsed →
        parsed.formType = [] ∨ parsed.riskScore = none →
        parseCore decode resp orig = Except.error ParseErr.missingFields) := by
  constructor
  · intro h
    simp [parseCore, h]
  · intro seg parsed hloc hdec hbad
    simp only [parseCore, hloc, hdec]
    have hcond : (injectViolations parsed orig).formType = []
        ∨ (injectViolations parsed orig).riskScore = none
        ∨ (injectViolations parsed orig).riskScore = some 0 := by
      rcases hbad with hft | hrs
      · exact Or.inl (by rw [injectViolations_formType, hft])
      · exact Or.inr (Or.inl (injectViolations_riskScore_none orig hrs))
    simp only [normalizeObj]
    rw [if_pos hcond]

theorem c5_witness :
    parseCore (fun _ => some emptyParsed) "no structured reply".toList [] =
      Except.error ParseErr.noJson
    ∧ parseCore (fun _ => some emptyParsed) "{ }".toList [] =
      Except.error ParseErr.missingFields :=
  ⟨(c5_malformed_rejection (fun _ => some emptyParsed) "no structured reply".toList []).1
      (by decide),
   (c5_malformed_rejection (fun _ => some emptyParsed) "{ }".toList []).2
      "{ }".toList emptyParsed (by decide) rfl (Or.inl rfl)⟩

theorem analyzeLoop_all_fail (outcomes : List ProviderOutcome) (acc : Option Str) (text : Str)
    (h : ∀ o ∈ outcomes, ∃ e, o = ProviderOutcome.fail e) :
    analyzeLoop outcomes acc text =
      getFallbackAnalysis text (outcomes.foldl lastErrStep acc) := by
  induction outcomes generalizing acc with
  | nil => rfl
  | cons o rest ih =>
    obtain ⟨e, rfl⟩ := h o (List.mem_cons_self o rest)
    simp only [analyzeLoop, List.foldl_cons, lastErrStep]
    exact ih (some e) (fun o' ho' => h o' (List.mem_cons_of_mem _ ho'))

theorem foldl_lastErr_some (outcomes : List ProviderOutcome) (acc : Option Str)
    (hne : outcomes ≠ []) (h : ∀ o ∈ outcomes, ∃ e, o = ProviderOutcome.fail e) :
    ∃ e, outcomes.foldl lastErrStep acc = some e := by
  induction outcomes generalizing acc with
  | nil => cases hne rfl
  | cons o rest ih =>
    obtain ⟨e, rfl⟩ := h o (List.mem_cons_self o rest)
    by_cases hr : rest = []
    · subst hr
      exact ⟨e, rfl⟩
    · simpa [lastErrStep] using
        ih (some e) hr (fun o' ho' => h o' (List.mem_cons_of_mem _ ho'))

/-- C1: when every configured backend fails, `analyzeSafetyForm` still
returns (it never throws) the complete fallback AnalysisResult:
`formType = "UNKNOWN"`, `formTypeConfidence = "LOW"`,
`requiresSupervisorReview = true` unconditionally, hazards drawn solely
from the violation detector (`extractBasicHazards`), exactly one
synthetic compliance issue flagging manual review, and provenance marked
as the fallback path carrying the triggering (last) error's message. -/
theorem c1_fallback_guarantee (outcomes : List ProviderOutcome) (text : Str)
    (hne : outcomes ≠ []) (hfail : ∀ o ∈ outcomes, ∃ e, o = ProviderOutcome.fail e) :
    analyzeSafetyForm outcomes text = getFallbackAnalysis text (lastErrOf outcomes)
    ∧ (analyzeSafetyForm outcomes text).formType = "UNKNOWN".toList
    ∧ (analyzeSafetyForm outcomes text).formTypeConfidence = "LOW".toList
    ∧ (analyzeSafetyForm outcomes text).requiresSupervisorReview = true
    ∧ (analyzeSafetyForm outcomes text).flaggedIssues
        = (extractBasicHazards text).map basicToFlagged
    ∧ (analyzeSafetyForm outcomes text).complianceIssues = [fallbackComplianceIssue]
    ∧ (analyzeSafetyForm outcomes text).analysisProvider = "fallback".toList
    ∧ (analyzeSafetyForm outcomes text).metaProvider = "fallback".toList
    ∧ (∃ e, lastErrOf outcomes = some e
        ∧ (analyzeSafetyForm outcomes text).metaError = some e
        ∧ (analyzeSafetyForm outcomes text).summary
            = "Analysis failed: ".toList ++ e
              ++ " - requires immediate manual safety review".toList) := by
  have heq : analyzeSafetyForm outcomes text
      = getFallbackAnalysis text (lastErrOf outcomes) :=
    analyzeLoop_all_fail outcomes none text hfail
  obtain ⟨e, he⟩ := foldl_lastErr_some outcomes none hne hfail
  have he' : lastErrOf outcomes = some e := he
  refine ⟨heq, ?_, ?_, ?_, ?_, ?_, ?_, ?_, ⟨e, he', ?_, ?_⟩⟩ <;>
    rw [heq] <;> simp [getFallbackAnalysis, he']

theorem c1_witness :
    (analyzeSafetyForm [ProviderOutcome.fail "DeepSeek API error: 500".toList]
        "hazard check".toList).formType = "UNKNOWN".toList
    ∧ (analyzeSafetyForm [ProviderOutcome.fail "DeepSeek API error: 500".toList]
        "hazard check".toList).requiresSupervisorReview = true
    ∧ (analyzeSafetyForm [ProviderOutcome.fail "DeepSeek API error: 500".toList]
        "hazard check".toList).metaProvider = "fallback".toList :=
  have h := c1_fallback_guarantee [ProviderOutcome.fail "DeepSeek API error: 500".toList]
    "hazard check".toList (by decide)
    (by
      intro o ho
      rcases List.mem_cons.mp ho with rfl | ho'
      · exact ⟨_, rfl⟩
      · cases ho')
  ⟨h.2.1, h.2.2.2.1, h.2.2.2.2.2.2.2.1⟩

/-- C4 counterexample: a 1005-character text containing hazard, emergency
and control vocabulary with no HRW, Fatal-Five or checkbox matches has
base score 5 (1 + four signals), not 4 as claimed. -/
theorem c4_counterexample :
    c4Text.length > 1000
    ∧ hazardVocab (lowerStr c4Text) = true
    ∧ emergencyVocab (lowerStr c4Text) = true
    ∧ controlVocab (lowerStr c4Text) = true
    ∧ detectHRWFactors c4Text = []
    ∧ fatalFiveDetected c4Text = false
    ∧ checkboxEscalation c4Text = 0
    ∧ calculateBaseRiskScore c4Text ≠ 4
    ∧ calculateBaseRiskScore c4Text = 5 := by
  refine ⟨by decide, by decide, by decide, by decide, by decide, by decide, by decide,
    by decide, by decide⟩

/-- C4 amended: such a text has base score 5, final score 5 (provided no
critical uncontrolled basic hazard is detected either), risk level
MEDIUM, and a score of 5 does not require supervisor review when the
analysis carries no critical flagged issue, no HIGH/CRITICAL compliance
issue and is not INCOMPLETE. -/
theorem c4_base_and_final_score (text : Str)
    (hlen : text.length > 1000)
    (hhaz : hazardVocab (lowerStr text) = true)
    (hemg : emergencyVocab (lowerStr text) = true)
    (hctl : controlVocab (lowerStr text) = true)
    (hhrw : detectHRWFactors text = [])
    (hff : fatalFiveDetected text = false)
    (hcb : checkboxEscalation text = 0)
    (hcrit : criticalUncontrolledCount (extractBasicHazards text) = 0) :
    calculateBaseRiskScore text = 5
    ∧ applyHRWEscalation (calculateBaseRiskScore text) (detectHRWFactors text)
        (extractBasicHazards text) text = 5
    ∧ getRiskLevel 5 = "MEDIUM".toList
    ∧ (∀ p : ParsedObj,
        (p.flaggedIssues.getD []).any (fun i => i.severity == "CRITICAL".toList) = false →
        p.formCompleteness ≠ "INCOMPLETE".toList →
        (p.complianceIssues.getD []).any
          (fun i => i.severity == "HIGH".toList || i.severity == "CRITICAL".toList) = false →
        calculateSupervisorReview p 5 = false) := by
  have hbase : calculateBaseRiskScore text = 5 := by
    simp [calculateBaseRiskScore, hlen, hhaz, hemg, hctl]
  refine ⟨hbase, ?_, by decide, ?_⟩
  · rw [hbase, hhrw]
    simp [applyHRWEscalation, hrwEscContribution, hff, hcb, hcrit]
  · intro p hflag hcompl hcompli
    simp only [List.any_eq_false, Bool.or_eq_true, beq_iff_eq, not_or] at hflag hcompli
    simp [calculateSupervisorReview]
    exact ⟨hflag, hcompl, hcompli⟩

theorem c4_witness :
    calculateBaseRiskScore c4Text = 5
    ∧ applyHRWEscalation (calculateBaseRiskScore c4Text) (detectHRWFactors c4Text)
        (extractBasicHazards c4Text) c4Text = 5
    ∧ calculateSupervisorReview emptyParsed 5 = false :=
  have h := c4_base_and_final_score c4Text (by decide) (by decide) (by decide) (by decide)
    (by decide) (by decide) (by decide) (by decide)
  ⟨h.1, h.2.1, h.2.2.2 emptyParsed rfl (by decide) rfl⟩

/-- The checkbox escalation restricted to the rules other than the
hearing-protection rule (row 1 of the table). -/
def checkboxEscalationExcl (text : Str) : Nat :=
  let l := lowerStr text
  ((escTable.eraseIdx 1).map
    (fun r => if r.negTest l && !(r.posTest l) then r.escalation else 0)).sum

theorem count_filter_map_table (tbl : List BasicRule) (l : Str) (h : BasicHazard) :
    ((tbl.filter (fun r => r.test l)).map (·.hazard)).count h
      = (tbl.map (fun r => if r.test l ∧ r.hazard = h then 1 else 0)).sum := by
  induction tbl with
  | nil => rfl
  | cons r rest ih =>
    rcases hb : r.test l with _ | _
    · simp [List.filter_cons, hb, ih]
    · by_cases hh : r.hazard = h
      · simp [List.filter_cons, hb, List.count_cons, hh, ih]
        omega
      · simp [List.filter_cons, hb, List.count_cons, hh, ih]

/-- C6 counterexample: in `x hearing protection ✓`, the negative and the
positive hearing-protection signature both match, the hazard record is
still added by `extractBasicHazards` (no positive-confirmation gate
there), while the escalation contribution is suppressed. -/
theorem c6_counterexample :
    hearingNegTest (lowerStr c6Text) = true
    ∧ hearingPosTest (lowerStr c6Text) = true
    ∧ hearingHazard ∈ extractBasicHazards c6Text
    ∧ checkboxEscalation c6Text = 0 := by
  refine ⟨by decide, by decide, by decide, by decide⟩

/-- C6 amended (for the hearing-protection rule, representative of the
table): the escalation weight is contributed at most once and only when
the negative signature matches and the positive-confirmation signature
does not; the hazard record, however, is added (exactly once) whenever
the negative signature matches, regardless of positive confirmation. -/
theorem c6_checkbox_rule_gating (text : Str) :
    ((extractBasicHazards text).count hearingHazard
      = if hearingNegTest (lowerStr text) then 1 else 0)
    ∧ (hearingPosTest (lowerStr text) = true →
        checkboxEscalation text = checkboxEscalationExcl text)
    ∧ (hearingNegTest (lowerStr text) = true → hearingPosTest (lowerStr text) = false →
        checkboxEscalation text = 1 + checkboxEscalationExcl text) := by
  refine ⟨?_, ?_, ?_⟩
  · simp only [extractBasicHazards, List.count_append, count_filter_map_table]
    simp +decide [basicTable, checkboxTable, mkHaz, hearingHazard]
  · intro hpos
    simp [checkboxEscalation, checkboxEscalationExcl, escTable, List.eraseIdx, hpos]
  · intro hneg hposf
    simp [checkboxEscalation, checkboxEscalationExcl, escTable, List.eraseIdx, hneg, hposf]
    omega

theorem c6_witness :
    ((extractBasicHazards "hearing protection x".toList).count hearingHazard
      = if hearingNegTest (lowerStr "hearing protection x".toList) then 1 else 0)
    ∧ checkboxEscalation "hearing protection x".toList
        = 1 + checkboxEscalationExcl "hearing protection x".toList :=
  have h := c6_checkbox_rule_gating "hearing protection x".toList
  ⟨h.1, h.2.2 (by decide) (by decide)⟩

theorem lowerStr_append (a b : Str) : lowerStr (a ++ b) = lowerStr a ++ lowerStr b :=
  List.map_append _ a b

theorem mem_extract_of_checkbox {r : BasicRule} (hr : r ∈ checkboxTable) {text : Str}
    (ht : r.test (lowerStr text) = true) : r.hazard ∈ extractBasicHazards text := by
  unfold extractBasicHazards
  exact List.mem_append_right _ (List.mem_map_of_mem _ (List.mem_filter.mpr ⟨hr, ht⟩))

theorem seq2_cls_right_exists {a : Atom} {cs L : Str} (h : seq2 a (.cls cs) L = true) :
    ∃ c ∈ L, c ∈ cs := by
  obtain ⟨s, hsuf, hf⟩ := startScan_exists h
  cases hat : atomAt a s with
  | none => rw [hat] at hf; cases hf
  | some r =>
    rw [hat] at hf
    obtain ⟨c, hcr, hcs⟩ := gapFind_exists_cls hf
    have hcl : c ∈ s := by
      cases a with
      | lit w =>
        simp only [atomAt] at hat
        split_ifs at hat
        cases hat
        exact List.mem_of_mem_drop hcr
      | cls cs' =>
        cases s with
        | nil => simp [atomAt] at hat
        | cons c₀ t =>
          simp only [atomAt] at hat
          split_ifs at hat
          cases hat
          exact List.mem_cons_of_mem c₀ hcr
    exact ⟨c, hsuf.subset hcl, hcs⟩

theorem seq2_cls_left_exists {a : Atom} {cs L : Str} (h : seq2 (.cls cs) a L = true) :
    ∃ c ∈ L, c ∈ cs := by
  obtain ⟨s, hsuf, hf⟩ := startScan_exists h
  cases s with
  | nil => simp [atomAt] at hf
  | cons c t =>
    by_cases hc : c ∈ cs
    · exact ⟨c, hsuf.subset (List.mem_cons_self c t), hc⟩
    · simp [atomAt, hc] at hf

/-- C10: the `[✗xX]` negative-mark class of the checkbox rules matches
the plain ASCII letters `x`/`X`, so a text in which the letter occurs in
an ordinary word on the same line after a rule's subject phrase — with no
real cross-mark and no check-mark anywhere — still fires the rule: the
hazard record (with `isControlled = false`) is added and the rule's
escalation weight is applied. -/
theorem c10_plain_letter_x_fires (pre mid post : Str) (mk : Char) (text : Str)
    (htext : text = pre ++ "hearing protection".toList ++ (mid ++ ([mk] ++ post)))
    (hmk : mk = 'x' ∨ mk = 'X')
    (hmid : ∀ c ∈ mid, isLineTerm (Char.toLower c) = false)
    (hnochk : ∀ c ∈ text, Char.toLower c ≠ '✓' ∧ Char.toLower c ≠ '✔')
    (hnocross : '✗' ∉ text) :
    hearingHazard ∈ extractBasicHazards text
    ∧ hearingHazard.isControlled = false
    ∧ 1 ≤ checkboxEscalation text := by
  have hsubj : lowerStr "hearing protection".toList = "hearing protection".toList := by decide
  have hmk' : lowerStr [mk] = ['x'] := by rcases hmk with rfl | rfl <;> decide
  have hlow : lowerStr text
      = lowerStr pre ++ ("hearing protection".toList ++ (lowerStr mid ++ (['x'] ++ lowerStr post))) := by
    rw [htext, lowerStr_append, lowerStr_append, lowerStr_append, lowerStr_append, hsubj, hmk']
    simp [List.append_assoc]
  have hmid' : ∀ c ∈ lowerStr mid, isLineTerm c = false := by
    intro c hc
    obtain ⟨c₀, hc₀, rfl⟩ := List.mem_map.mp hc
    exact hmid c₀ hc₀
  have hneg : hearingNegTest (lowerStr text) = true := by
    have h1 : seq2 (.lit "hearing protection".toList) negCls (lowerStr text) = true := by
      rw [hlow]
      unfold seq2
      apply startScan_append
      apply startScan_self
      have hat : atomAt (.lit "hearing protection".toList)
          ("hearing protection".toList ++ (lowerStr mid ++ (['x'] ++ lowerStr post)))
          = some (lowerStr mid ++ (['x'] ++ lowerStr post)) := by
        simp [atomAt, isPrefixOf_append_self, List.drop_left]
      rw [hat]
      apply gapFind_append _ hmid'
      simp [gapFind, atomAt, negCls]
    simp only [hearingNegTest, Bool.or_eq_true]
    exact Or.inl h1
  have hpos : hearingPosTest (lowerStr text) = false := by
    cases hp : hearingPosTest (lowerStr text) with
    | false => rfl
    | true =>
      exfalso
      have hex : ∃ c ∈ lowerStr text, c ∈ (['✓', '✔'] : Str) := by
        unfold hearingPosTest at hp
        simp only [Bool.or_eq_true] at hp
        rcases hp with h1 | h2
        · exact seq2_cls_right_exists h1
        · exact seq2_cls_left_exists h2
      obtain ⟨c, hcl, hcs⟩ := hex
      obtain ⟨c₀, hc₀, rfl⟩ := List.mem_map.mp hcl
      rcases List.mem_cons.mp hcs with h | h
      · exact (hnochk c₀ hc₀).1 h
      · rcases List.mem_cons.mp h with h | h
        · exact (hnochk c₀ hc₀).2 h
        · cases h
  refine ⟨?_, rfl, ?_⟩
  · exact mem_extract_of_checkbox
      (List.mem_cons_of_mem _ (List.mem_cons_self _ _)) hneg
  · have hterm :
        (if hearingNegTest (lowerStr text) && !(hearingPosTest (lowerStr text))
          then (1 : Nat) else 0) = 1 := by
      rw [hneg, hpos]
      rfl
    have hmem :
        (if hearingNegTest (lowerStr text) && !(hearingPosTest (lowerStr text))
          then (1 : Nat) else 0)
        ∈ escTable.map
            (fun r => if r.negTest (lowerStr text) && !(r.posTest (lowerStr text))
              then r.escalation else 0) :=
      List.mem_map_of_mem _ (List.mem_cons_of_mem _ (List.mem_cons_self _ _))
    calc (1 : Nat)
        = (if hearingNegTest (lowerStr text) && !(hearingPosTest (lowerStr text))
            then (1 : Nat) else 0) := hterm.symm
      _ ≤ checkboxEscalation text :=
          List.single_le_sum (fun x _ => Nat.zero_le x) _ hmem

theorem c10_witness :
    hearingHazard ∈ extractBasicHazards "hearing protection was expected today".toList
    ∧ 1 ≤ checkboxEscalation "hearing protection was expected today".toList :=
  have h := c10_plain_letter_x_fires [] " was e".toList "pected today".toList 'x'
    "hearing protection was expected today".toList (by decide) (Or.inl rfl)
    (by decide) (by decide) (by decide)
  ⟨h.1, h.2.2⟩

/-- `normalizeObj` on an accepted object when no direct violation is
injected. -/
theorem normalizeObj_ok {obj : ParsedObj} {text : Str}
    (hviol : detectViolations text = [])
    (hft : obj.formType ≠ [])
    (hrs : obj.riskScore ≠ none) (hrs0 : obj.riskScore ≠ some 0) :
    normalizeObj obj text = Except.ok (enhanceAnalysisResult
      { obj with
        flaggedIssues := some (obj.flaggedIssues.getD []),
        hrwFactors := some (obj.hrwFactors.getD []),
        ppeRequired := some (obj.ppeRequired.getD []),
        complianceIssues := some (obj.complianceIssues.getD []) } text) := by
  simp only [normalizeObj]
  rw [injectViolations_nil obj hviol, if_neg (by simp [hft, hrs, hrs0])]

/-- C8 counterexample: normalization is not idempotent.  A reply with
risk score 5 and one HRW factor of weight 4 normalizes (against a benign
text) to score 9; serializing that result back through the schema and
normalizing it again re-applies the HRW escalation and yields 10. -/
theorem c8_counterexample :
    (normalizeObj c8Obj c8Text).map (·.riskScore) = Except.ok 9
    ∧ ((normalizeObj c8Obj c8Text).bind
        (fun a => normalizeObj (toParsedObj a) c8Text)).map (·.riskScore) = Except.ok 10 :=
  ⟨rfl, rfl⟩

/-- C8 amended: re-normalizing an already-normalized result (round-tripped
through the schema, same original text) preserves the risk score and the
flagged-hazard set provided the analysis carries no escalation source:
no injected violation, no Fatal-Five match in the text, no HRW factor and
no critical uncontrolled flagged issue.  (With any escalation source the
score is escalated again, as the counterexample shows.) -/
theorem c8_renormalize_stable (obj : ParsedObj) (text : Str) (A : Analysis)
    (hok : normalizeObj obj text = Except.ok A)
    (hviol : detectViolations text = [])
    (hff : fatalFiveDetected text = false)
    (hhrw : obj.hrwFactors.getD [] = [])
    (hcrit : criticalUncontrolledIssues (obj.flaggedIssues.getD []) = 0) :
    ∃ B : Analysis, normalizeObj (toParsedObj A) text = Except.ok B
      ∧ B.riskScore = A.riskScore
      ∧ B.flaggedIssues = A.flaggedIssues := by
  have hcond : ¬(obj.formType = [] ∨ obj.riskScore = none ∨ obj.riskScore = some 0) := by
    intro hc
    simp only [normalizeObj] at hok
    rw [injectViolations_nil obj hviol, if_pos hc] at hok
    simp at hok
  have hA : enhanceAnalysisResult
      { obj with
        flaggedIssues := some (obj.flaggedIssues.getD []),
        hrwFactors := some (obj.hrwFactors.getD []),
        ppeRequired := some (obj.ppeRequired.getD []),
        complianceIssues := some (obj.complianceIssues.getD []) } text = A := by
    have h2 := hok
    rw [normalizeObj_ok hviol (by tauto) (by tauto) (by tauto)] at h2
    exact (Except.ok.injEq _ _).mp h2
  push_neg at hcond
  have hAform : A.formType = obj.formType := by rw [← hA]; rfl
  have hAflag : A.flaggedIssues = obj.flaggedIssues.getD [] := by rw [← hA]; rfl
  have hAhrw : A.hrwFactors = [] := by rw [← hA]; exact hhrw
  have hArs : A.riskScore = min 10 (jsOrNat obj.riskScore (calculateBaseRiskScore text)) := by
    rw [← hA]
    show min 10 (jsOrNat obj.riskScore (calculateBaseRiskScore text)
        + (hrwEscContribution (obj.hrwFactors.getD [])
           + (if fatalFiveDetected text then 1 else 0)
           + criticalUncontrolledIssues (obj.flaggedIssues.getD []))) = _
    rw [hhrw, hff, hcrit]
    simp [hrwEscContribution]
  have hAlow : 1 ≤ A.riskScore := by
    rw [hArs]
    exact le_min (by norm_num) (jsOrNat_pos (calculateBaseRiskScore_pos text))
  have hAhigh : A.riskScore ≤ 10 := by
    rw [hArs]
    exact min_le_left _ _
  refine ⟨_, normalizeObj_ok hviol ?_ ?_ ?_, ?_, ?_⟩
  · show A.formType ≠ []
    rw [hAform]
    exact hcond.1
  · simp [toParsedObj]
  · simp only [toParsedObj, ne_eq, Option.some.injEq]
    omega
  · show min 10 (jsOrNat (some A.riskScore) (calculateBaseRiskScore text)
        + (hrwEscContribution A.hrwFactors
           + (if fatalFiveDetected text then 1 else 0)
           + criticalUncontrolledIssues A.flaggedIssues)) = A.riskScore
    have h0 : jsOrNat (some A.riskScore) (calculateBaseRiskScore text) = A.riskScore := by
      show (if A.riskScore = 0 then calculateBaseRiskScore text else A.riskScore) = A.riskScore
      rw [if_neg (Nat.one_le_iff_ne_zero.mp hAlow)]
    rw [hAhrw, hAflag, hcrit, hff, h0]
    simp [hrwEscContribution]
    exact hAhigh
  · rfl

theorem c8_witness :
    ∃ B : Analysis, normalizeObj (toParsedObj c8WA) c8Text = Except.ok B
      ∧ B.riskScore = c8WA.riskScore
      ∧ B.flaggedIssues = c8WA.flaggedIssues :=
  c8_renormalize_stable c8WObj c8Text c8WA rfl (by decide) (by decide) rfl rfl

end SafetyForms
